import Mathlib

/-!
Shallow embedding of the discus scoring application (`src/app.py`).

Conventions of the embedding:
* Python strings are Lean `String`s; a value that may be Python `None` (or a
  pandas `NaN` cell) is an `Option String`, with `none` standing for the
  absent/NaN case.
* Python floats are modelled by `ℚ`.  The application only parses decimal
  literals, compares them and takes maxima, so the rational model is exact for
  every behaviour the claims mention.  Non-finite floats (`inf`, `nan`) and
  underscore separators accepted by Python's `float` are outside the model.
* `pandas.DataFrame` values are modelled by lists of rows; a CSV table is a
  header list together with rows of optional cells (`none` = missing/NaN).
-/

namespace Discus

/-- Python `str.strip()`: drop whitespace from both ends of the string. -/
def pyStrip (s : String) : String :=
  ⟨((s.data.dropWhile Char.isWhitespace).reverse.dropWhile Char.isWhitespace).reverse⟩

/-- Numeric value of a list of decimal digit characters. -/
def digitsVal (ds : List Char) : Nat :=
  ds.foldl (fun n c => 10 * n + (c.toNat - 48)) 0

/-- Rational value `sgn * mant * 10 ^ shift`, built with a single `mkRat` so
that it evaluates by kernel reduction. -/
def decValue (sgn : Int) (mant : Nat) (shift : Int) : ℚ :=
  if 0 ≤ shift then mkRat (sgn * mant * ((10 : Int) ^ shift.toNat)) 1
  else mkRat (sgn * mant) ((10 : Nat) ^ (-shift).toNat)

/-- Exponent suffix of a Python float literal: optional sign then one or more
digits, which must consume the rest of the text. -/
def expVal (cs : List Char) : Option Int :=
  let sgn : Int := match cs with
    | '-' :: _ => -1
    | _ => 1
  let cs1 : List Char := match cs with
    | '-' :: t => t
    | '+' :: t => t
    | _ => cs
  let ed := cs1.takeWhile Char.isDigit
  if ed.isEmpty ∨ ¬ (cs1.dropWhile Char.isDigit).isEmpty then none
  else some (sgn * (digitsVal ed : Int))

/-- Model of Python's `float(str)` on the strings this application can see:
strip whitespace, optional sign, integer digits, optional fraction, optional
exponent.  Returns `none` exactly when Python would raise `ValueError`.
(`inf`/`nan` literals and digit underscores are not modelled.) -/
def pyFloat (s : String) : Option ℚ :=
  let cs := (pyStrip s).data
  let sgn : Int := match cs with
    | '-' :: _ => -1
    | _ => 1
  let cs1 : List Char := match cs with
    | '-' :: t => t
    | '+' :: t => t
    | _ => cs
  let ip := cs1.takeWhile Char.isDigit
  let rest1 := cs1.dropWhile Char.isDigit
  match rest1 with
  | [] => if ip.isEmpty then none else some (decValue sgn (digitsVal ip) 0)
  | '.' :: rest2 =>
    let fp := rest2.takeWhile Char.isDigit
    let rest3 := rest2.dropWhile Char.isDigit
    if ip.isEmpty ∧ fp.isEmpty then none
    else
      let mant := digitsVal (ip ++ fp)
      match rest3 with
      | [] => some (decValue sgn mant (-(fp.length : Int)))
      | 'e' :: rest4 => (expVal rest4).map fun e => decValue sgn mant (e - fp.length)
      | 'E' :: rest4 => (expVal rest4).map fun e => decValue sgn mant (e - fp.length)
      | _ => none
  | 'e' :: rest2 =>
    if ip.isEmpty then none
    else (expVal rest2).map fun e => decValue sgn (digitsVal ip) e
  | 'E' :: rest2 =>
    if ip.isEmpty then none
    else (expVal rest2).map fun e => decValue sgn (digitsVal ip) e
  | _ => none

/-- `parse_throw` from `src/app.py`: converts string input to a number,
returning `0.0` for `None`, the empty string, the dash, or text `float`
rejects.  The Python guard `not val` is truth-testing: it is `True` exactly
for `None` and the empty string here. -/
def parse_throw (val : Option String) : ℚ :=
  match val with
  | none => 0
  | some s =>
    if s = "" ∨ s = "-" then 0
    else match pyFloat s with
      | some q => q
      | none => 0

/-- Core of `get_best_throw`: `valid_throws = [parse_throw(t) for t in throws]`
then `max(valid_throws) if valid_throws else 0.0`.  Python's `max` of a
nonempty list is a left fold of binary `max` over the tail. -/
def best_list (throws : List (Option String)) : ℚ :=
  match throws.map parse_throw with
  | [] => 0
  | h :: t => t.foldl max h

/-- An athlete record as built by `src/app.py` (dict with keys `id`,
`Category`, `House`, `Name`, `t1`..`t5`; all five throw slots always
present). -/
structure Athlete where
  id : String
  category : String
  house : String
  name : String
  t1 : String
  t2 : String
  t3 : String
  t4 : String
  t5 : String
deriving DecidableEq

/-- `get_best_throw` from `src/app.py`: best of the five throw slots.
`athlete.get('t1', '')` always finds the key, so the slots are passed as
present (`some`) strings. -/
def get_best_throw (athlete : Athlete) : ℚ :=
  best_list [some athlete.t1, some athlete.t2, some athlete.t3,
    some athlete.t4, some athlete.t5]

/-! ### Ranking engine (final round, `src/app.py` lines 160--185) -/

/-- Relation used by `sorted(cat_data, key=lambda x: get_best_throw(x),
reverse=True)`: `a` may precede `b` iff `a`'s best throw is at least `b`'s. -/
def rank_le (a b : Athlete) : Prop :=
  get_best_throw b ≤ get_best_throw a

instance : DecidableRel rank_le :=
  fun a b => inferInstanceAs (Decidable (get_best_throw b ≤ get_best_throw a))

instance : IsTotal Athlete rank_le :=
  ⟨fun a b => le_total (get_best_throw b) (get_best_throw a)⟩

instance : IsTrans Athlete rank_le :=
  ⟨fun _ _ _ h1 h2 => le_trans h2 h1⟩

/-- `sorted_athletes`: Python's `sorted` is a stable sort, and with
`reverse=True` equal-key elements still keep their input order; insertion
sort along `rank_le` produces exactly that list. -/
def sorted_athletes (cat_data : List Athlete) : List Athlete :=
  List.insertionSort rank_le cat_data

/-- `top_5 = sorted_athletes[:5]`. -/
def top_5 (cat_data : List Athlete) : List Athlete :=
  (sorted_athletes cat_data).take 5

/-- `final_order = top_5[::-1]`. -/
def final_order (cat_data : List Athlete) : List Athlete :=
  (top_5 cat_data).reverse

/-- Python's `list.index(x)`: position of the first element comparing equal
to `x` (dict comparison is field-wise equality).  Total here; the
application only calls it on members of the list. -/
def list_index {α : Type} [DecidableEq α] (x : α) : List α → Nat
  | [] => 0
  | y :: ys => if y = x then 0 else list_index x ys + 1

/-- `current_rank = sorted_athletes.index(athlete) + 1`. -/
def current_rank (sorted : List Athlete) (athlete : Athlete) : Nat :=
  list_index athlete sorted + 1

/-! ### Results table and export (`src/app.py` lines 191--225) -/

/-- One entry of `results_list`: the dict appended for each athlete of the
selected category. -/
structure ResRow where
  name : String
  house : String
  best : ℚ
  rt1 : String
  rt2 : String
  rt3 : String
  rt4 : String
  rt5 : String
deriving DecidableEq

/-- `results_list`: rows in roster (`cat_data`) order. -/
def results_list (cat_data : List Athlete) : List ResRow :=
  cat_data.map fun a =>
    ⟨a.name, a.house, get_best_throw a, a.t1, a.t2, a.t3, a.t4, a.t5⟩

/-!
Model of `df.sort_values(by="Best Throw", ascending=False)` with the
default `kind='quicksort'`.  pandas (`pandas.core.sorting.nargsort`,
`ascending=False`, no NaNs) reverses the values, argsorts them ascending,
maps the result through the reversed index array and reverses the indexer.
The argsort is numpy's `npy_aquicksort` (`npysort/quicksort.cpp`): an
introsort over an index array — median-of-three quicksort partitions with
an explicit segment stack, segments of at most `SMALL_QUICKSORT = 15`
entries finished by insertion sort, and a segment whose depth budget
(`2 * msb n`, tested when the segment is entered) is exhausted finished by
`npy_aheapsort`.  The embedding below follows that C routine step by step
on an index list; `fuel` arguments only bound the recursion and are chosen
large enough that they never expire on a trace the C code performs, and
out-of-bounds accesses (undefined behaviour in C, not reached) read `0`
and write nothing.
-/

/-- Value array access `v[k]`. -/
def vAt (v : List ℚ) (k : Nat) : ℚ := v.getD k 0

/-- Index array access `tosort[i]`. -/
def lget (t : List Nat) (i : Nat) : Nat := t.getD i 0

/-- Swap of two entries of the index array. -/
def lswap (t : List Nat) (i j : Nat) : List Nat :=
  if i < t.length ∧ j < t.length then
    (t.set i (lget t j)).set j (lget t i)
  else t

/-- `if (v[tosort[a]] < v[tosort[b]]) swap(tosort[a], tosort[b])`. -/
def condSwap (v : List ℚ) (t : List Nat) (a b : Nat) : List Nat :=
  if vAt v (lget t a) < vAt v (lget t b) then lswap t a b else t

/-- The midpoint `pl + ((pr - pl) >> 1)` of a segment. -/
def midOf (pl pr : Nat) : Nat := pl + (pr - pl) / 2

/-- The three conditional median-of-three swaps staging the pivot at the
segment midpoint. -/
def med3 (v : List ℚ) (t : List Nat) (pl pr : Nat) : List Nat :=
  condSwap v (condSwap v (condSwap v t (midOf pl pr) pl) pr (midOf pl pr))
    (midOf pl pr) pl

/-- The pivot value `vp = v[*pm]` read after the median staging. -/
def pivotVal (v : List ℚ) (t : List Nat) (pl pr : Nat) : ℚ :=
  vAt v (lget (med3 v t pl pr) (midOf pl pr))

/-- The scan `do ++pi; while (v[tosort[pi]] < vp)`, called at the first
candidate position. -/
def scanUp (v : List ℚ) (t : List Nat) (vp : ℚ) : Nat → Nat → Nat
  | 0, pi => pi
  | fuel + 1, pi => if vAt v (lget t pi) < vp then scanUp v t vp fuel (pi + 1) else pi

/-- The scan `do --pj; while (vp < v[tosort[pj]])`, called at the first
candidate position. -/
def scanDown (v : List ℚ) (t : List Nat) (vp : ℚ) : Nat → Nat → Nat
  | 0, pj => pj
  | fuel + 1, pj => if vp < vAt v (lget t pj) then scanDown v t vp fuel (pj - 1) else pj

/-- The crossing loop of the partition: scan, then swap `tosort[pi]` and
`tosort[pj]` until the pointers cross; returns the array and the final
`pi`. -/
def partLoop (v : List ℚ) (vp : ℚ) : Nat → Nat → Nat → List Nat → List Nat × Nat
  | 0, pi, _, t => (t, pi)
  | fuel + 1, pi, pj, t =>
    if scanDown v t vp (t.length + 2) (pj - 1) ≤ scanUp v t vp (t.length + 2) (pi + 1) then
      (t, scanUp v t vp (t.length + 2) (pi + 1))
    else
      partLoop v vp fuel (scanUp v t vp (t.length + 2) (pi + 1))
        (scanDown v t vp (t.length + 2) (pj - 1))
        (lswap t (scanUp v t vp (t.length + 2) (pi + 1))
          (scanDown v t vp (t.length + 2) (pj - 1)))

/-- Final pivot placement `swap(tosort[pi], tosort[pr - 1])`. -/
def partSwapIn (r : List Nat × Nat) (pk : Nat) : List Nat × Nat :=
  (lswap r.1 r.2 pk, r.2)

/-- One full `npy_aquicksort` partition of the segment `[pl, pr]`: median
staging, pivot parked at `pr - 1`, crossing loop from `pi = pl`,
`pj = pr - 1`, and final pivot placement; returns the array and the pivot
position `pi`. -/
def partitionStep (v : List ℚ) (t : List Nat) (pl pr : Nat) : List Nat × Nat :=
  partSwapIn
    (partLoop v (pivotVal v t pl pr) (t.length + 2) pl (pr - 1)
      (lswap (med3 v t pl pr) (midOf pl pr) (pr - 1)))
    (pr - 1)

/-- Inner loop of the `npy_aquicksort` insertion sort, expressed with
adjacent swaps; the C source shifts the larger entries right and writes
the saved index once, producing the same array. -/
def bubble (v : List ℚ) (pl : Nat) : Nat → Nat → List Nat → List Nat
  | 0, _, t => t
  | fuel + 1, pj, t =>
    if pl < pj ∧ vAt v (lget t pj) < vAt v (lget t (pj - 1)) then
      bubble v pl fuel (pj - 1) (lswap t (pj - 1) pj)
    else t

/-- Outer loop of the insertion sort: `for (pi = pl + 1; pi <= pr; ++pi)`. -/
def insLoop (v : List ℚ) (pl : Nat) : Nat → Nat → List Nat → List Nat
  | 0, _, t => t
  | cnt + 1, pi, t => insLoop v pl cnt (pi + 1) (bubble v pl pi pi t)

/-- Insertion sort of the segment `[pl, pr]` of the index array. -/
def insSortSeg (v : List ℚ) (t : List Nat) (pl pr : Nat) : List Nat :=
  insLoop v pl (pr - pl) (pl + 1) t

/-- Sift-down of `npy_aheapsort` on the one-based heap starting at offset
`pl` (`a[k]` is `tosort[pl + k - 1]`), expressed with swaps; the C source
moves the saved index down the path and writes it once, producing the same
array and comparisons. -/
def heapSift (v : List ℚ) (pl : Nat) : Nat → Nat → Nat → List Nat → List Nat
  | 0, _, _, t => t
  | fuel + 1, i, nn, t =>
    if 2 * i ≤ nn then
      if 2 * i < nn ∧ vAt v (lget t (pl + 2 * i - 1)) < vAt v (lget t (pl + 2 * i)) then
        if vAt v (lget t (pl + i - 1)) < vAt v (lget t (pl + 2 * i)) then
          heapSift v pl fuel (2 * i + 1) nn (lswap t (pl + i - 1) (pl + 2 * i))
        else t
      else
        if vAt v (lget t (pl + i - 1)) < vAt v (lget t (pl + 2 * i - 1)) then
          heapSift v pl fuel (2 * i) nn (lswap t (pl + i - 1) (pl + 2 * i - 1))
        else t
    else t

/-- Heap construction loop of `npy_aheapsort`: sift from `l = n >> 1` down
to `1`. -/
def heapBuild (v : List ℚ) (pl : Nat) : Nat → Nat → Nat → List Nat → List Nat
  | 0, _, _, t => t
  | fuel + 1, l, nn, t =>
    if l = 0 then t
    else heapBuild v pl fuel (l - 1) nn (heapSift v pl (nn + 2) l nn t)

/-- Extraction loop of `npy_aheapsort`: swap `a[n]` with `a[1]`, shrink the
heap and sift the new root. -/
def heapExtract (v : List ℚ) (pl : Nat) : Nat → Nat → List Nat → List Nat
  | 0, _, t => t
  | fuel + 1, nn, t =>
    if nn ≤ 1 then t
    else heapExtract v pl fuel (nn - 1)
      (heapSift v pl (nn + 2) 1 (nn - 1) (lswap t (pl + nn - 1) pl))

/-- `npy_aheapsort` of the segment `[pl, pr]` (no-op on an empty
segment, as in C where the length argument is then non-positive). -/
def aheapsortSeg (v : List ℚ) (t : List Nat) (pl pr : Nat) : List Nat :=
  heapExtract v pl (pr + 2 - pl) (pr + 1 - pl)
    (heapBuild v pl ((pr + 1 - pl) / 2 + 1) ((pr + 1 - pl) / 2) (pr + 1 - pl) t)

/-- Main loop of `npy_aquicksort`: `entering` is true when a segment is
entered from the top of the outer `for (;;)` (at the start or after a
stack pop), which is the only point where the C code tests the depth
budget.  A partition pushes the larger half (with the decremented budget)
and continues on the smaller; a small segment is insertion sorted and the
stack popped. -/
def qsRun (v : List ℚ) : Nat → Bool → Int → Nat → Nat → List (Nat × Nat × Int) →
    List Nat → List Nat
  | 0, _, _, _, _, _, t => t
  | fuel + 1, entering, cdepth, pl, pr, stk, t =>
    if entering = true ∧ cdepth < 0 then
      match stk, aheapsortSeg v t pl pr with
      | [], t' => t'
      | (pl', pr', d') :: stk', t' => qsRun v fuel true d' pl' pr' stk' t'
    else if 15 < pr - pl then
      if (partitionStep v t pl pr).2 - pl < pr - (partitionStep v t pl pr).2 then
        qsRun v fuel false (cdepth - 1) pl ((partitionStep v t pl pr).2 - 1)
          (((partitionStep v t pl pr).2 + 1, pr, cdepth - 1) :: stk)
          (partitionStep v t pl pr).1
      else
        qsRun v fuel false (cdepth - 1) ((partitionStep v t pl pr).2 + 1) pr
          ((pl, (partitionStep v t pl pr).2 - 1, cdepth - 1) :: stk)
          (partitionStep v t pl pr).1
    else
      match stk, insSortSeg v t pl pr with
      | [], t' => t'
      | (pl', pr', d') :: stk', t' => qsRun v fuel true d' pl' pr' stk' t'

/-- Position of the most significant bit (`npy_get_msb`), written with
structural recursion on a fuel bound so that it evaluates by kernel
reduction. -/
def msbAux : Nat → Nat → Nat
  | 0, _ => 0
  | fuel + 1, n => if n ≤ 1 then 0 else msbAux fuel (n / 2) + 1

/-- `npy_get_msb n`: the floor of the base-2 logarithm (0 for 0). -/
def npy_get_msb (n : Nat) : Nat := msbAux n n

/-- `numpy.argsort(kind='quicksort')` of a float array, as an index list:
`npy_aquicksort` started on the identity index array with depth budget
`2 * msb n`. -/
def npyAargsort (v : List ℚ) : List Nat :=
  qsRun v (4 * v.length + 16) true (2 * (npy_get_msb v.length : Int)) 0 (v.length - 1) []
    (List.range v.length)

/-- `pandas.core.sorting.nargsort` for `ascending=False` with no NaNs:
argsort the reversed values, map through the reversed index array, and
reverse the indexer. -/
def nargsortDesc (vals : List ℚ) : List Nat :=
  ((npyAargsort vals.reverse).map (fun k => vals.length - 1 - k)).reverse

/-- `df.sort_values(by="Best Throw", ascending=False)`: gather the rows
along the pandas indexer. -/
def sort_values_best (rows : List ResRow) : List ResRow :=
  (nargsortDesc (rows.map ResRow.best)).map
    (fun i => rows.getD i ⟨"", "", 0, "", "", "", "", ""⟩)

/-- `df_res` after the descending sort on `Best Throw`. -/
def df_res (cat_data : List Athlete) : List ResRow :=
  sort_values_best (results_list cat_data)

/-- A delimited table: trimmed or raw header names plus rows of cells.
A `none` cell is a missing value (pandas `NaN`). -/
structure Table where
  cols : List String
  rows : List (List (Option String))
deriving DecidableEq

/-- Header of the exported CSV: `df_res.to_csv()` writes the index (named
`Rank`) followed by the data columns. -/
def export_cols : List String :=
  ["Rank", "Name", "House", "Best Throw", "T1", "T2", "T3", "T4", "T5"]

/-- Rows of the exported CSV: the sorted results, with the 1-based index in
front.  The numeric rendering of `Best Throw` is abstracted by `toString`
on `ℚ`; no claim inspects that cell. -/
def export_rows (cat_data : List Athlete) : List (List (Option String)) :=
  (df_res cat_data).enum.map fun p =>
    [some (toString (p.1 + 1)), some p.2.name, some p.2.house,
      some (toString p.2.best), some p.2.rt1, some p.2.rt2, some p.2.rt3,
      some p.2.rt4, some p.2.rt5]

/-- The downloadable results file `Discus_<Category>.csv`. -/
def export_table (cat_data : List Athlete) : Table :=
  ⟨export_cols, export_rows cat_data⟩

/-! ### Bulk load (`src/app.py` lines 50--75) -/

/-- Session state: the roster list and the per-category finalized flags
(the categories mapped to `True` in `finalists_generated`). -/
structure AppState where
  discus_data : List Athlete
  finalists_generated : List String
deriving DecidableEq

/-- Python's `str(cell)` on a cell read by pandas: a missing value is the
float `nan`, which prints as the text `nan`. -/
def pyStr : Option String → String
  | none => "nan"
  | some s => s

/-- `required = ['Category', 'House', 'Name']`. -/
def required : List String := ["Category", "House", "Name"]

/-- Error text of `st.error(f"CSV needs columns: {required}")` (Python
renders the list with quoted entries; the quoting is abstracted). -/
def needs_cols_msg : String := "CSV needs columns: [Category, House, Name]"

/-- Value of `row[c]` for a normalized header list. -/
def col_value (cols : List String) (row : List (Option String)) (c : String) :
    Option String :=
  (row.get? (list_index c cols)).getD none

/-- Record built for one CSV row: `id` is `f"{Name}_{House}"`, all five
throw slots initialize empty. -/
def load_row (cols : List String) (row : List (Option String)) : Athlete :=
  ⟨pyStr (col_value cols row "Name") ++ "_" ++ pyStr (col_value cols row "House"),
    pyStr (col_value cols row "Category"),
    pyStr (col_value cols row "House"),
    pyStr (col_value cols row "Name"),
    "", "", "", "", ""⟩

/-- The `Load Data` handler: strip the headers, check the required columns,
and either replace the whole store (resetting the finalized flags) or
report an error and leave the state untouched. -/
def load_data (t : Table) (s : AppState) : AppState × Option String :=
  if required.all (fun c => (t.cols.map pyStrip).contains c) then
    (⟨t.rows.map (load_row (t.cols.map pyStrip)), []⟩, none)
  else
    (s, some needs_cols_msg)

example : parse_throw (some "44.5") = mkRat 89 2 := by decide
example : parse_throw (some "-") = 0 := by decide
example : parse_throw (some "abc") = 0 := by decide
example : parse_throw (some "1e3") = 1000 := by decide
example : parse_throw (some " 40 ") = 40 := by decide
example : parse_throw (some "-3.5") = mkRat (-7) 2 := by decide
example : parse_throw (some ".") = 0 := by decide
example : parse_throw none = 0 := by decide
example : get_best_throw ⟨"A_R", "Girls", "R", "A", "40", "", "", "", ""⟩ = 40 := by decide

/-- Roster entry used in the concrete scenarios: name, house, category and
a single first-round throw. -/
def mkAth (nm hs ct tv : String) : Athlete :=
  ⟨nm ++ "_" ++ hs, ct, hs, nm, tv, "", "", "", ""⟩

/-- Scenario athlete A, best 40. -/
def athA : Athlete := mkAth "A" "Red" "Girls" "40"

/-- Scenario athlete B, best 40. -/
def athB : Athlete := mkAth "B" "Blue" "Girls" "40"

/-- Scenario athlete C, best 35. -/
def athC : Athlete := mkAth "C" "Red" "Girls" "35"

/-- Duplicate-record scenario athlete, best 40; two CSV rows with the same
name and house produce two such identical records. -/
def athD : Athlete := mkAth "D" "Red" "Girls" "40"

/-- Finalist scenario athlete, best 50. -/
def athP : Athlete := mkAth "P" "Red" "Open" "50"

/-- Finalist scenario athlete, best 40. -/
def athQ : Athlete := mkAth "Q" "Blue" "Open" "40"

/-- Finalist scenario athlete, best 30. -/
def athR : Athlete := mkAth "R" "Green" "Open" "30"

/-- Finalist scenario athlete, best 20. -/
def athS : Athlete := mkAth "S" "Gold" "Open" "20"

/-- Finalist scenario athlete, best 10. -/
def athT : Athlete := mkAth "T" "Pink" "Open" "10"

/-- Name, House and raw throw-slot cells of an exported row (drop the rank
and best-throw columns). -/
def row_texts (r : List (Option String)) : List (Option String) :=
  (r.drop 1).take 2 ++ r.drop 4

/-- Name, House and raw throw-slot cells of a results-table row. -/
def res_texts (r : ResRow) : List (Option String) :=
  [some r.name, some r.house, some r.rt1, some r.rt2, some r.rt3,
    some r.rt4, some r.rt5]

/-- Name, House and raw throw-slot texts of an athlete record. -/
def athlete_texts (a : Athlete) : List (Option String) :=
  [some a.name, some a.house, some a.t1, some a.t2, some a.t3,
    some a.t4, some a.t5]

example : sorted_athletes [athA, athB, athC] = [athA, athB, athC] := by decide
set_option maxRecDepth 100000

set_option maxHeartbeats 1000000

example : df_res [athA, athB, athC] = results_list [athA, athB, athC] := by decide
example : npyAargsort [0, 0, 0, 0, 0, 0, 0, 0, 0, 0, 0, 0, 0, 0, 0, 0, 0]
    = [0, 14, 13, 12, 11, 10, 9, 15, 8, 6, 5, 4, 3, 2, 1, 7, 16] := by decide
example : npyAargsort [0, 0, 0, 0, 0, 0, 0, 0, 0, 0, 0, 0, 0, 0, 0, 0]
    = [0, 1, 2, 3, 4, 5, 6, 7, 8, 9, 10, 11, 12, 13, 14, 15] := by decide
example : nargsortDesc [1, 3, 2, 3] = [1, 3, 2, 0] := by decide
example : final_order [athA, athB, athC] = [athC, athB, athA] := by decide
example :
    (final_order [athA, athB, athC]).map (current_rank (sorted_athletes [athA, athB, athC]))
      = [3, 2, 1] := by decide
example :
    (load_data (export_table [athA]) ⟨[athA], []⟩).2 = some needs_cols_msg := by decide
example :
    load_data ⟨["Category", "House", "Name"], [[some "Girls", some "Red", none]]⟩ ⟨[], ["Girls"]⟩
      = (⟨[⟨"nan_Red", "Girls", "Red", "nan", "", "", "", "", ""⟩], []⟩, none) := by decide
example :
    (load_data ⟨["category", "House", "Name"], [[some "Girls", some "Red", some "Ann"]]⟩
      ⟨[athA], ["Girls"]⟩) = (⟨[athA], ["Girls"]⟩, some needs_cols_msg) := by decide

/-! ### Stability of the insertion sorts -/

theorem filter_orderedInsert_pos {α : Type} (r : α → α → Prop) [DecidableRel r]
    (p : α → Bool) (a : α) (hpa : p a = true) (h : ∀ b, p b = true → r a b) :
    ∀ l : List α, (List.orderedInsert r a l).filter p = a :: l.filter p := by
  intro l
  induction l with
  | nil => simp [hpa]
  | cons b l ih =>
    by_cases hr : r a b
    · simp [List.orderedInsert, if_pos hr, hpa]
    · have hpb : p b = false := by
        cases hb : p b with
        | false => rfl
        | true => exact absurd (h b hb) hr
      simp only [List.orderedInsert, if_neg hr, List.filter_cons, hpb]
      simpa [hpb] using ih

theorem filter_orderedInsert_neg {α : Type} (r : α → α → Prop) [DecidableRel r]
    (p : α → Bool) (a : α) (hpa : p a = false) :
    ∀ l : List α, (List.orderedInsert r a l).filter p = l.filter p := by
  intro l
  induction l with
  | nil => simp [hpa]
  | cons b l ih =>
    by_cases hr : r a b
    · simp [List.orderedInsert, if_pos hr, hpa]
    · simp only [List.orderedInsert, if_neg hr, List.filter_cons]
      rw [ih]

/-- Insertion sort is stable: along a relation that holds between any two
elements selected by `p`, sorting does not change the `p`-selected
subsequence. -/
theorem filter_insertionSort {α : Type} (r : α → α → Prop) [DecidableRel r]
    (p : α → Bool) (h : ∀ a b, p a = true → p b = true → r a b) :
    ∀ l : List α, (List.insertionSort r l).filter p = l.filter p := by
  intro l
  induction l with
  | nil => rfl
  | cons a l ih =>
    cases hpa : p a with
    | true =>
      rw [List.insertionSort,
        filter_orderedInsert_pos r p a hpa (fun b hb => h a b hpa hb), ih]
      simp [hpa]
    | false =>
      rw [List.insertionSort, filter_orderedInsert_neg r p a hpa, ih]
      simp [hpa]

/-- Stability of the final-round leaderboard sort. -/
theorem sorted_athletes_stable (l : List Athlete) (v : ℚ) :
    (sorted_athletes l).filter (fun a => decide (get_best_throw a = v))
      = l.filter (fun a => decide (get_best_throw a = v)) :=
  filter_insertionSort rank_le _
    (fun a b ha hb => by
      have ha' := of_decide_eq_true ha
      have hb' := of_decide_eq_true hb
      unfold rank_le
      rw [ha', hb'])
    l

/-! ### The quicksort argsort permutes the index array -/

theorem set_getD_self (t : List Nat) (i : Nat) (h : i < t.length) :
    t.set i (t.getD i 0) = t := by
  apply List.ext_getElem
  · rw [List.length_set]
  · intro k h1 h2
    rw [List.getElem_set]
    split
    · rename_i hk
      subst hk
      exact List.getD_eq_getElem t 0 h
    · rfl

theorem set_head_perm (x : Nat) :
    ∀ (t : List Nat) (m : Nat), m < t.length →
      List.Perm (t.getD m 0 :: t.set m x) (x :: t)
  | [], m, h => absurd h (by simp)
  | b :: s, 0, _ => by
    show List.Perm (b :: x :: s) (x :: b :: s)
    exact List.Perm.swap x b s
  | b :: s, m + 1, h => by
    show List.Perm (s.getD m 0 :: b :: s.set m x) (x :: b :: s)
    have ih := set_head_perm x s m (by simpa using h)
    exact ((List.Perm.swap b (s.getD m 0) (s.set m x)).trans (ih.cons b)).trans
      (List.Perm.swap x b s)

theorem lswap_perm (t : List Nat) (i j : Nat) : List.Perm (lswap t i j) t := by
  unfold lswap
  by_cases h : i < t.length ∧ j < t.length
  · rw [if_pos h]
    rcases eq_or_ne i j with rfl | hne
    · rw [List.set_set]
      show List.Perm (t.set i (t.getD i 0)) t
      rw [set_getD_self t i h.1]
    · have h1 : List.Perm (lget t i :: t.set i (lget t j)) (lget t j :: t) :=
        set_head_perm (lget t j) t i h.1
      have hg : (t.set i (lget t j)).getD j 0 = lget t j := by
        unfold lget
        rw [List.getD_eq_getElem _ 0 (by rw [List.length_set]; exact h.2),
          List.getD_eq_getElem t 0 h.2, List.getElem_set_ne hne]
      have h2 : List.Perm (lget t j :: (t.set i (lget t j)).set j (lget t i))
          (lget t i :: t.set i (lget t j)) := by
        have h3 := set_head_perm (lget t i) (t.set i (lget t j)) j
          (by rw [List.length_set]; exact h.2)
        rw [hg] at h3
        exact h3
      exact List.Perm.cons_inv (h2.trans h1)
  · rw [if_neg h]

theorem condSwap_perm (v : List ℚ) (t : List Nat) (a b : Nat) :
    List.Perm (condSwap v t a b) t := by
  unfold condSwap
  split
  · exact lswap_perm t a b
  · exact List.Perm.refl t

theorem med3_perm (v : List ℚ) (t : List Nat) (pl pr : Nat) :
    List.Perm (med3 v t pl pr) t :=
  (condSwap_perm v _ _ _).trans ((condSwap_perm v _ _ _).trans (condSwap_perm v t _ _))

theorem partLoop_perm (v : List ℚ) (vp : ℚ) :
    ∀ (fuel pi pj : Nat) (t : List Nat), List.Perm (partLoop v vp fuel pi pj t).1 t
  | 0, _, _, _ => List.Perm.refl _
  | fuel + 1, pi, pj, t => by
    unfold partLoop
    split
    · exact List.Perm.refl t
    · exact (partLoop_perm v vp fuel _ _ _).trans (lswap_perm t _ _)

theorem partitionStep_perm (v : List ℚ) (t : List Nat) (pl pr : Nat) :
    List.Perm (partitionStep v t pl pr).1 t := by
  unfold partitionStep partSwapIn
  exact (lswap_perm _ _ _).trans
    ((partLoop_perm v _ _ _ _ _).trans ((lswap_perm _ _ _).trans (med3_perm v t pl pr)))

theorem bubble_perm (v : List ℚ) (pl : Nat) :
    ∀ (fuel pj : Nat) (t : List Nat), List.Perm (bubble v pl fuel pj t) t
  | 0, _, _ => List.Perm.refl _
  | fuel + 1, pj, t => by
    unfold bubble
    split
    · exact (bubble_perm v pl fuel _ _).trans (lswap_perm t _ _)
    · exact List.Perm.refl t

theorem insLoop_perm (v : List ℚ) (pl : Nat) :
    ∀ (cnt pi : Nat) (t : List Nat), List.Perm (insLoop v pl cnt pi t) t
  | 0, _, _ => List.Perm.refl _
  | cnt + 1, pi, t => by
    unfold insLoop
    exact (insLoop_perm v pl cnt _ _).trans (bubble_perm v pl pi pi t)

theorem insSortSeg_perm (v : List ℚ) (t : List Nat) (pl pr : Nat) :
    List.Perm (insSortSeg v t pl pr) t :=
  insLoop_perm v pl (pr - pl) (pl + 1) t

theorem heapSift_perm (v : List ℚ) (pl : Nat) :
    ∀ (fuel i nn : Nat) (t : List Nat), List.Perm (heapSift v pl fuel i nn t) t
  | 0, _, _, _ => List.Perm.refl _
  | fuel + 1, i, nn, t => by
    unfold heapSift
    split
    · split
      · split
        · exact (heapSift_perm v pl fuel _ _ _).trans (lswap_perm t _ _)
        · exact List.Perm.refl t
      · split
        · exact (heapSift_perm v pl fuel _ _ _).trans (lswap_perm t _ _)
        · exact List.Perm.refl t
    · exact List.Perm.refl t

theorem heapBuild_perm (v : List ℚ) (pl : Nat) :
    ∀ (fuel l nn : Nat) (t : List Nat), List.Perm (heapBuild v pl fuel l nn t) t
  | 0, _, _, _ => List.Perm.refl _
  | fuel + 1, l, nn, t => by
    unfold heapBuild
    split
    · exact List.Perm.refl t
    · exact (heapBuild_perm v pl fuel _ _ _).trans (heapSift_perm v pl _ _ _ t)

theorem heapExtract_perm (v : List ℚ) (pl : Nat) :
    ∀ (fuel nn : Nat) (t : List Nat), List.Perm (heapExtract v pl fuel nn t) t
  | 0, _, _ => List.Perm.refl _
  | fuel + 1, nn, t => by
    unfold heapExtract
    split
    · exact List.Perm.refl t
    · exact (heapExtract_perm v pl fuel _ _).trans
        ((heapSift_perm v pl _ _ _ _).trans (lswap_perm t _ _))

theorem aheapsortSeg_perm (v : List ℚ) (t : List Nat) (pl pr : Nat) :
    List.Perm (aheapsortSeg v t pl pr) t :=
  (heapExtract_perm v pl _ _ _).trans (heapBuild_perm v pl _ _ _ t)

theorem qsRun_perm (v : List ℚ) :
    ∀ (fuel : Nat) (b : Bool) (d : Int) (pl pr : Nat)
      (stk : List (Nat × Nat × Int)) (t : List Nat),
      List.Perm (qsRun v fuel b d pl pr stk t) t
  | 0, _, _, _, _, _, _ => List.Perm.refl _
  | fuel + 1, b, d, pl, pr, stk, t => by
    unfold qsRun
    split
    · cases stk with
      | nil => exact aheapsortSeg_perm v t pl pr
      | cons fr stk' =>
        exact (qsRun_perm v fuel true fr.2.2 fr.1 fr.2.1 stk' _).trans
          (aheapsortSeg_perm v t pl pr)
    · split
      · split
        · exact (qsRun_perm v fuel false _ _ _ _ _).trans (partitionStep_perm v t pl pr)
        · exact (qsRun_perm v fuel false _ _ _ _ _).trans (partitionStep_perm v t pl pr)
      · cases stk with
        | nil => exact insSortSeg_perm v t pl pr
        | cons fr stk' =>
          exact (qsRun_perm v fuel true fr.2.2 fr.1 fr.2.1 stk' _).trans
            (insSortSeg_perm v t pl pr)

theorem npyAargsort_perm (v : List ℚ) :
    List.Perm (npyAargsort v) (List.range v.length) :=
  qsRun_perm v _ _ _ _ _ _ _

theorem map_sub_range (n : Nat) :
    (List.range n).map (fun k => n - 1 - k) = (List.range n).reverse := by
  apply List.ext_getElem
  · simp
  · intro i h1 h2
    have hn : i < n := by simpa using h1
    rw [List.getElem_map, List.getElem_range, List.getElem_reverse, List.getElem_range,
      List.length_range]

theorem nargsortDesc_perm (vals : List ℚ) :
    List.Perm (nargsortDesc vals) (List.range vals.length) := by
  have h1 : List.Perm (npyAargsort vals.reverse) (List.range vals.length) := by
    have := npyAargsort_perm vals.reverse
    rwa [List.length_reverse] at this
  have h2 := h1.map (fun k => vals.length - 1 - k)
  rw [map_sub_range vals.length] at h2
  exact (List.reverse_perm _).trans (h2.trans (List.reverse_perm _))

theorem gather_perm {β : Type} (rows : List β) (d : β) (idxs : List Nat)
    (h : List.Perm idxs (List.range rows.length)) :
    List.Perm (idxs.map fun i => rows.getD i d) rows := by
  have hm := h.map fun i => rows.getD i d
  have h2 : (List.range rows.length).map (fun i => rows.getD i d) = rows := by
    apply List.ext_getElem
    · simp
    · intro i h1 h2
      rw [List.getElem_map, List.getElem_range, List.getD_eq_getElem rows d h2]
  rw [h2] at hm
  exact hm

/-- The pandas-style sort permutes the rows. -/
theorem sort_values_best_perm (rows : List ResRow) :
    List.Perm (sort_values_best rows) rows := by
  unfold sort_values_best
  apply gather_perm
  have := nargsortDesc_perm (rows.map ResRow.best)
  rwa [List.length_map] at this

/-! ### Properties of the best-throw fold -/

theorem foldl_max_spec :
    ∀ (t : List ℚ) (a : ℚ),
      (List.foldl max a t = a ∨ List.foldl max a t ∈ t)
      ∧ a ≤ List.foldl max a t
      ∧ ∀ x ∈ t, x ≤ List.foldl max a t
  | [], a => ⟨Or.inl rfl, le_refl a, by simp⟩
  | b :: t, a => by
    have ih := foldl_max_spec t (max a b)
    simp only [List.foldl_cons]
    refine ⟨?_, ?_, ?_⟩
    · rcases ih.1 with h | h
      · rcases max_choice a b with hm | hm
        · exact Or.inl (h.trans hm)
        · exact Or.inr (List.mem_cons.mpr (Or.inl (h.trans hm)))
      · exact Or.inr (List.mem_cons_of_mem b h)
    · exact le_trans (le_max_left a b) ih.2.1
    · intro x hx
      rcases List.mem_cons.mp hx with hx | hx
      · rw [hx]
        exact le_trans (le_max_right a b) ih.2.1
      · exact ih.2.2 x hx

theorem foldl_max_le_of_perm {a b : ℚ} {t t' : List ℚ}
    (hm : List.Perm (a :: t) (b :: t')) :
    List.foldl max a t ≤ List.foldl max b t' := by
  have s1 := foldl_max_spec t a
  have s2 := foldl_max_spec t' b
  have hmem : List.foldl max a t ∈ a :: t := by
    rcases s1.1 with h | h
    · rw [h]
      exact List.mem_cons_self a t
    · exact List.mem_cons_of_mem a h
  rcases List.mem_cons.mp (hm.mem_iff.mp hmem) with h | h
  · rw [h]
    exact s2.2.1
  · exact s2.2.2 _ h

/-- Python's `max` over a list is invariant under permutation of the list. -/
theorem best_list_perm {ts ts' : List (Option String)} (h : List.Perm ts ts') :
    best_list ts = best_list ts' := by
  have hm : List.Perm (ts.map parse_throw) (ts'.map parse_throw) := h.map parse_throw
  unfold best_list
  cases hc : ts.map parse_throw with
  | nil =>
    cases hc' : ts'.map parse_throw with
    | nil => rfl
    | cons b t' =>
      rw [hc, hc'] at hm
      exact absurd hm.length_eq (by simp)
  | cons a t =>
    cases hc' : ts'.map parse_throw with
    | nil =>
      rw [hc, hc'] at hm
      exact absurd hm.length_eq (by simp)
    | cons b t' =>
      rw [hc, hc'] at hm
      exact le_antisymm (foldl_max_le_of_perm hm) (foldl_max_le_of_perm hm.symm)

/-! ### Properties of `list.index` -/

theorem list_index_getElem {α : Type} [DecidableEq α] :
    ∀ (l : List α), l.Nodup → ∀ (i : Nat) (h : i < l.length),
      list_index (l.get ⟨i, h⟩) l = i
  | [], _, i, h => absurd h (by simp)
  | a :: t, hnd, 0, _ => by simp [list_index]
  | a :: t, hnd, i + 1, h => by
    have hat : a ∉ t := (List.nodup_cons.mp hnd).1
    have ht : i < t.length := by simpa using Nat.lt_of_succ_lt_succ h
    have hne : a ≠ t.get ⟨i, ht⟩ := fun he => hat (he ▸ t.get_mem i ht)
    have hg : (a :: t).get ⟨i + 1, h⟩ = t.get ⟨i, ht⟩ := rfl
    rw [hg, list_index, if_neg hne,
      list_index_getElem t (List.nodup_cons.mp hnd).2 i ht]

theorem list_index_spec {α : Type} [DecidableEq α] :
    ∀ (l : List α) (x : α), x ∈ l →
      l.get? (list_index x l) = some x
      ∧ ∀ j, j < list_index x l → l.get? j ≠ some x
  | [], x, hx => absurd hx (by simp)
  | a :: t, x, hx => by
    by_cases hax : a = x
    · refine ⟨?_, ?_⟩
      · simp [list_index, hax]
      · intro j hj
        rw [list_index, if_pos hax] at hj
        omega
    · have hxt : x ∈ t := by
        rcases List.mem_cons.mp hx with h | h
        · exact absurd h.symm hax
        · exact h
      have ih := list_index_spec t x hxt
      refine ⟨?_, ?_⟩
      · rw [list_index, if_neg hax, List.get?_cons_succ]
        exact ih.1
      · intro j hj
        cases j with
        | zero =>
          rw [List.get?_cons_zero]
          intro he
          exact hax (Option.some.inj he)
        | succ j =>
          rw [list_index, if_neg hax] at hj
          rw [List.get?_cons_succ]
          exact ih.2 j (by omega)

/-- With pairwise-distinct records, the displayed rank of the `i`-th entry
of the leaderboard is `i + 1`. -/
theorem take_map_current_rank (s : List Athlete) (hnd : s.Nodup) (k : Nat) :
    (s.take k).map (current_rank s)
      = (List.range (min k s.length)).map (fun i => i + 1) := by
  apply List.ext_getElem
  · simp [List.length_take]
  · intro i h1 h2
    have hi : i < s.length := by
      simp [List.length_take] at h1
      omega
    have htk : i < (s.take k).length := by
      simpa using h1
    rw [List.getElem_map, List.getElem_map, List.getElem_range]
    have hgt : (s.take k)[i] = s[i] := List.getElem_take s
    rw [hgt]
    unfold current_rank
    have := list_index_getElem s hnd i hi
    simp only [List.get_eq_getElem] at this
    rw [this]

/-! ### Behaviour of `parse_throw` -/

theorem parse_throw_some_eq (s : String) :
    parse_throw (some s)
      = if s = "" ∨ s = "-" then 0
        else match pyFloat s with
          | some q => q
          | none => 0 := rfl

theorem parse_throw_of_none {s : String} (h : pyFloat s = none) :
    parse_throw (some s) = 0 := by
  rw [parse_throw_some_eq]
  by_cases he : s = "" ∨ s = "-"
  · rw [if_pos he]
  · rw [if_neg he, h]

theorem parse_throw_of_some {s : String} {q : ℚ} (h1 : s ≠ "") (h2 : s ≠ "-")
    (h : pyFloat s = some q) : parse_throw (some s) = q := by
  rw [parse_throw_some_eq, if_neg (by tauto), h]

/-! ### Claim theorems: the throw parser -/

/-- C3: the throw parser returns `0.0` for an empty, absent, dash, or
unparseable input and otherwise the parsed numeric value unchanged,
including negative numbers; it is a total function (no visible error). -/
theorem C3_parse_throw_spec :
    parse_throw none = 0
    ∧ parse_throw (some "") = 0
    ∧ parse_throw (some "-") = 0
    ∧ (∀ s, pyFloat s = none → parse_throw (some s) = 0)
    ∧ (∀ s q, s ≠ "" → s ≠ "-" → pyFloat s = some q → parse_throw (some s) = q)
    ∧ parse_throw (some "44.5") = mkRat 89 2
    ∧ parse_throw (some "-2") = -2
    ∧ parse_throw (some "abc") = 0 :=
  ⟨rfl, by decide, by decide,
    fun _ h => parse_throw_of_none h,
    fun _ _ h1 h2 h => parse_throw_of_some h1 h2 h,
    by decide, by decide, by decide⟩

/-- Witness for C3: the hypotheses of the two conditional conjuncts are
discharged at the concrete inputs `"abc"` and `"12.25"`. -/
theorem C3_witness :
    parse_throw (some "abc") = 0 ∧ parse_throw (some "12.25") = mkRat 49 4 :=
  ⟨C3_parse_throw_spec.2.2.2.1 "abc" (by decide),
    C3_parse_throw_spec.2.2.2.2.1 "12.25" (mkRat 49 4) (by decide) (by decide)
      (by decide)⟩

/-- C4 counterexample: the input `"-3.5"` parses to a negative output, so
the parser's output is not a non-negative number for every text input. -/
theorem C4_nonneg_cex :
    parse_throw (some "-3.5") = mkRat (-7) 2 ∧ parse_throw (some "-3.5") < 0 := by
  constructor
  · decide
  · decide

/-- C4 (amended): the parser's output is non-negative unless the input text
parses as a negative number, in which case that negative parsed value is
returned unchanged. -/
theorem C4_parse_throw_sign (v : Option String) :
    0 ≤ parse_throw v
    ∨ ∃ s, v = some s ∧ pyFloat s = some (parse_throw v) ∧ parse_throw v < 0 := by
  match v with
  | none => exact Or.inl le_rfl
  | some s =>
    by_cases he : s = "" ∨ s = "-"
    · left
      rw [parse_throw_some_eq, if_pos he]
    · cases hf : pyFloat s with
      | none => exact Or.inl (le_of_eq (parse_throw_of_none hf).symm)
      | some q =>
        have hq : parse_throw (some s) = q :=
          parse_throw_of_some (by tauto) (by tauto) hf
        rcases le_or_lt 0 q with h0 | h0
        · exact Or.inl (hq ▸ h0)
        · exact Or.inr ⟨s, rfl, by rw [hq]; exact hf, hq ▸ h0⟩

/-! ### Claim theorems: best throw -/

/-- C5: `get_best_throw` is the maximum of the five parsed slots, the fold
defaults to `0.0` on an empty slot list, and the result is invariant under
any permutation of the slot values. -/
theorem C5_best_throw_max (a : Athlete) (ts ts' : List (Option String))
    (h : List.Perm ts ts') :
    get_best_throw a
      = max (max (max (max (parse_throw (some a.t1)) (parse_throw (some a.t2)))
          (parse_throw (some a.t3))) (parse_throw (some a.t4)))
          (parse_throw (some a.t5))
    ∧ best_list [] = 0
    ∧ best_list ts = best_list ts' :=
  ⟨rfl, rfl, best_list_perm h⟩

/-- Witness for C5 at a concrete athlete and a concrete permutation of
slot texts. -/
theorem C5_witness :
    get_best_throw athA
      = max (max (max (max (parse_throw (some athA.t1)) (parse_throw (some athA.t2)))
          (parse_throw (some athA.t3))) (parse_throw (some athA.t4)))
          (parse_throw (some athA.t5))
    ∧ best_list [some "40", none, some "-"] = best_list [some "-", some "40", none] :=
  ⟨(C5_best_throw_max athA [some "40", none, some "-"] [some "-", some "40", none]
      (by decide)).1,
    (C5_best_throw_max athA [some "40", none, some "-"] [some "-", some "40", none]
      (by decide)).2.2⟩

/-! ### Branch behaviour of the bulk load -/

theorem load_data_of_false (t : Table) (s : AppState)
    (h : (required.all fun c => ((t.cols.map pyStrip).contains c)) = false) :
    load_data t s = (s, some needs_cols_msg) := by
  unfold load_data
  rw [h]
  rfl

theorem load_data_of_true (t : Table) (s : AppState)
    (h : (required.all fun c => ((t.cols.map pyStrip).contains c)) = true) :
    load_data t s = (⟨t.rows.map (load_row (t.cols.map pyStrip)), []⟩, none) := by
  unfold load_data
  rw [h]
  rfl

theorem all_contains_iff (cols : List String) :
    (required.all fun c => (cols.contains c)) = true ↔ ∀ c ∈ required, c ∈ cols := by
  rw [List.all_eq_true]
  constructor
  · intro h c hc
    simpa using h c hc
  · intro h c hc
    simpa using h c hc

/-! ### Claim theorems: leaderboard, finalists, export, import -/

/-- A 17-athlete category with no recorded throws: every best throw is
0.0, so every pair of athletes is tied. -/
def tiedRoster : List Athlete :=
  [mkAth "A01" "H" "Open" "", mkAth "A02" "H" "Open" "", mkAth "A03" "H" "Open" "",
    mkAth "A04" "H" "Open" "", mkAth "A05" "H" "Open" "", mkAth "A06" "H" "Open" "",
    mkAth "A07" "H" "Open" "", mkAth "A08" "H" "Open" "", mkAth "A09" "H" "Open" "",
    mkAth "A10" "H" "Open" "", mkAth "A11" "H" "Open" "", mkAth "A12" "H" "Open" "",
    mkAth "A13" "H" "Open" "", mkAth "A14" "H" "Open" "", mkAth "A15" "H" "Open" "",
    mkAth "A16" "H" "Open" "", mkAth "A17" "H" "Open" ""]

/-- C1 counterexample: the exported results table is not stable on ties.
A 17-athlete all-tied category exceeds the 15-entry insertion-sort
threshold of numpy's introsort, whose partition pass swaps tied entries:
the exported table lists the roster rows in the order
[1, 10, 16, 15, 14, 13, 12, 11, 9, 2, 8, 7, 6, 5, 4, 3, 17], so the tied
athletes A02 and A10 (among others) do not keep their roster order. -/
theorem C1_table_tie_cex :
    (∀ r ∈ results_list tiedRoster, r.best = 0)
    ∧ (df_res tiedRoster).map ResRow.name
        = ["A01", "A10", "A16", "A15", "A14", "A13", "A12", "A11", "A09", "A02",
          "A08", "A07", "A06", "A05", "A04", "A03", "A17"]
    ∧ (df_res tiedRoster).map ResRow.name ≠ (results_list tiedRoster).map ResRow.name := by
  refine ⟨by decide, by decide, by decide⟩

/-- C1 (amended): the final-round sort is a stable sort by best throw
descending — tied athletes keep their roster order, and the scenario
A(40), B(40), C(35) ranks [A, B, C] there and in the exported table.  The
exported results table itself is only guaranteed to hold exactly the
category's rows (a permutation); its quicksort argsort does not preserve
the roster order of tied athletes in general. -/
theorem C1_leaderboard_stable_sort (l : List Athlete) (rows : List ResRow) (v : ℚ) :
    ((sorted_athletes l).filter (fun a => decide (get_best_throw a = v))
        = l.filter (fun a => decide (get_best_throw a = v)))
    ∧ List.Sorted rank_le (sorted_athletes l)
    ∧ List.Perm (sort_values_best rows) rows
    ∧ sorted_athletes [athA, athB, athC] = [athA, athB, athC]
    ∧ df_res [athA, athB, athC] = results_list [athA, athB, athC] :=
  ⟨sorted_athletes_stable l v, List.sorted_insertionSort rank_le l,
    sort_values_best_perm rows, by decide, by decide⟩

/-- C2 counterexample: exporting a one-athlete roster and re-importing the
file does not succeed — the load is rejected (the export has no `Category`
column) and the prior state is returned unchanged. -/
theorem C2_roundtrip_cex :
    load_data (export_table [athA]) ⟨[athA], []⟩
      = (⟨[athA], []⟩, some needs_cols_msg) := by decide

/-- C2 (amended): re-importing an exported results file always fails the
required-column check (the export has no `Category` column), leaving the
prior roster and flags untouched; the exported table itself preserves each
athlete's Name, House and five raw throw-slot texts exactly, one row per
athlete. -/
theorem C2_export_reimport (l : List Athlete) (s : AppState) :
    load_data (export_table l) s = (s, some needs_cols_msg)
    ∧ List.Perm ((export_table l).rows.map row_texts) (l.map athlete_texts) := by
  constructor
  · have hc : (required.all fun c => ((export_cols.map pyStrip).contains c))
        = false := by decide
    exact load_data_of_false (export_table l) s hc
  · have h1 : (export_table l).rows.map row_texts = (df_res l).map res_texts := by
      show ((df_res l).enum.map _).map row_texts = (df_res l).map res_texts
      rw [List.map_map]
      show List.map (res_texts ∘ Prod.snd) ((df_res l).enum) = List.map res_texts (df_res l)
      rw [← List.map_map, List.enum_map_snd]
    have h3 : (results_list l).map res_texts = l.map athlete_texts := by
      unfold results_list
      rw [List.map_map]
      rfl
    rw [h1, ← h3]
    exact (sort_values_best_perm (results_list l)).map res_texts

/-- C6 counterexample: with two identical records the finalist in
leaderboard position 2 is displayed with rank 1, not with its 1-based
position 2. -/
theorem C6_rank_cex :
    (top_5 [athD, athD]).map (current_rank (sorted_athletes [athD, athD])) = [1, 1]
    ∧ (top_5 [athD, athD]).map (current_rank (sorted_athletes [athD, athD])) ≠ [1, 2] := by
  constructor
  · decide
  · decide

/-- C6 (amended): `select_finalists` takes the first 5 leaderboard entries
and returns exactly `min 5 n` finalists (never more than 5); each finalist
is assigned one plus the index of the first equal leaderboard record, which
equals its 1-based leaderboard position whenever the category's records are
pairwise distinct. -/
theorem C6_select_finalists (l : List Athlete) :
    top_5 l = (sorted_athletes l).take 5
    ∧ (top_5 l).length = min 5 l.length
    ∧ (top_5 l).length ≤ 5
    ∧ (l.Nodup →
        (top_5 l).map (current_rank (sorted_athletes l))
          = (List.range (min 5 l.length)).map (fun i => i + 1)) := by
  have hlen : (sorted_athletes l).length = l.length := by
    unfold sorted_athletes
    rw [List.length_insertionSort]
  refine ⟨rfl, ?_, ?_, ?_⟩
  · unfold top_5
    rw [List.length_take, hlen]
  · unfold top_5
    rw [List.length_take, hlen]
    exact Nat.min_le_left 5 l.length
  · intro h
    have hnd : (sorted_athletes l).Nodup :=
      ((List.perm_insertionSort rank_le l).nodup_iff).mpr h
    unfold top_5
    rw [take_map_current_rank (sorted_athletes l) hnd 5, hlen]

/-- Witness for C6 at the concrete distinct roster [A, B, C]. -/
theorem C6_witness :
    [athA, athB, athC].Nodup
    ∧ (top_5 [athA, athB, athC]).map (current_rank (sorted_athletes [athA, athB, athC]))
        = (List.range (min 5 [athA, athB, athC].length)).map (fun i => i + 1) :=
  ⟨by decide, (C6_select_finalists [athA, athB, athC]).2.2.2 (by decide)⟩

/-- C7: the final-round iteration order is the reverse of the top-5
leaderboard prefix; with pairwise-distinct records the displayed rank
sequence is `[min 5 n, ..., 2, 1]`, and for the concrete 3-athlete category
the display order carries ranks [3, 2, 1]. -/
theorem C7_final_order_reversed (l : List Athlete) :
    final_order l = ((sorted_athletes l).take 5).reverse
    ∧ (l.Nodup →
        (final_order l).map (current_rank (sorted_athletes l))
          = ((List.range (min 5 l.length)).map (fun i => i + 1)).reverse)
    ∧ (final_order [athR, athQ, athP]).map (current_rank (sorted_athletes [athR, athQ, athP]))
        = [3, 2, 1] := by
  refine ⟨rfl, ?_, by decide⟩
  intro h
  have hnd : (sorted_athletes l).Nodup :=
    ((List.perm_insertionSort rank_le l).nodup_iff).mpr h
  have hlen : (sorted_athletes l).length = l.length := by
    unfold sorted_athletes
    rw [List.length_insertionSort]
  unfold final_order top_5
  rw [List.map_reverse, take_map_current_rank (sorted_athletes l) hnd 5, hlen]

/-- Witness for C7 at a concrete 5-athlete category: iteration order
carries ranks [5, 4, 3, 2, 1]. -/
theorem C7_witness :
    [athP, athQ, athR, athS, athT].Nodup
    ∧ (final_order [athP, athQ, athR, athS, athT]).map
        (current_rank (sorted_athletes [athP, athQ, athR, athS, athT]))
        = [5, 4, 3, 2, 1] := by
  refine ⟨by decide, ?_⟩
  rw [(C7_final_order_reversed [athP, athQ, athR, athS, athT]).2.1 (by decide)]
  decide

/-- C8 counterexample: a header spelled `category` is rejected although the
claim promises case-insensitive matching, and a row with a missing `Name`
value is not a load failure — it loads as the text `nan`. -/
theorem C8_header_cex :
    load_data ⟨["category", "House", "Name"], [[some "Girls", some "Red", some "Ann"]]⟩
        ⟨[athA], ["Girls"]⟩
      = (⟨[athA], ["Girls"]⟩, some needs_cols_msg)
    ∧ load_data ⟨["Category", "House", "Name"], [[some "Girls", some "Red", none]]⟩
        ⟨[athA], ["Girls"]⟩
      = (⟨[⟨"nan_Red", "Girls", "Red", "nan", "", "", "", "", ""⟩], []⟩, none) := by
  constructor
  · decide
  · decide

/-- C8 (amended): import accepts a file iff every required column name
(`Category`, `House`, `Name`) appears among the whitespace-trimmed headers
under exact, case-sensitive comparison; rows never cause a load failure,
and a missing cell is imported as the text `nan`. -/
theorem C8_import_rules (t : Table) (s : AppState) :
    ((load_data t s).2 = none ↔ ∀ c ∈ required, c ∈ t.cols.map pyStrip)
    ∧ ((load_data t s).2 = none →
        (load_data t s).1.discus_data = t.rows.map (load_row (t.cols.map pyStrip)))
    ∧ pyStr none = "nan" := by
  cases hb : required.all fun c => ((t.cols.map pyStrip).contains c) with
  | true =>
    have he := load_data_of_true t s hb
    refine ⟨?_, fun _ => by rw [he], rfl⟩
    rw [he]
    exact ⟨fun _ => (all_contains_iff (t.cols.map pyStrip)).mp hb, fun _ => rfl⟩
  | false =>
    have he := load_data_of_false t s hb
    refine ⟨?_, fun hn => ?_, rfl⟩
    · rw [he]
      constructor
      · intro hn
        exact absurd hn (by simp)
      · intro hm
        have ht := (all_contains_iff (t.cols.map pyStrip)).mpr hm
        rw [hb] at ht
        exact absurd ht (by simp)
    · rw [he] at hn
      exact absurd hn (by simp)

/-- Witness for C8: the conditional conjunct is discharged at a concrete
accepted table. -/
theorem C8_witness :
    (load_data ⟨[" Category ", "House", "Name"], [[some "Girls", some "Red", some "Ann"]]⟩
        ⟨[athA], ["Girls"]⟩).1.discus_data
      = [⟨"Ann_Red", "Girls", "Red", "Ann", "", "", "", "", ""⟩] := by
  rw [(C8_import_rules
    ⟨[" Category ", "House", "Name"], [[some "Girls", some "Red", some "Ann"]]⟩
    ⟨[athA], ["Girls"]⟩).2.1 (by decide)]
  decide

/-- C9: bulk load is atomic on error and resets flags on success — a
missing required column rejects the import with the error message and the
prior state is returned untouched, while a successful load replaces the
store entirely, initializes every throw slot empty, and clears every
finalized flag. -/
theorem C9_bulk_load (t : Table) (s : AppState) :
    ((required.all fun c => ((t.cols.map pyStrip).contains c)) = false →
      load_data t s = (s, some needs_cols_msg))
    ∧ ((required.all fun c => ((t.cols.map pyStrip).contains c)) = true →
        load_data t s = (⟨t.rows.map (load_row (t.cols.map pyStrip)), []⟩, none)
        ∧ ∀ a ∈ (load_data t s).1.discus_data,
            a.t1 = "" ∧ a.t2 = "" ∧ a.t3 = "" ∧ a.t4 = "" ∧ a.t5 = "") := by
  constructor
  · intro h
    exact load_data_of_false t s h
  · intro h
    refine ⟨load_data_of_true t s h, ?_⟩
    intro a ha
    rw [load_data_of_true t s h] at ha
    obtain ⟨row, _, hrow⟩ := List.mem_map.mp ha
    rw [← hrow]
    exact ⟨rfl, rfl, rfl, rfl, rfl⟩

/-- Witness for C9: both branches discharged at concrete tables. -/
theorem C9_witness :
    load_data ⟨["category", "House", "Name"], []⟩ ⟨[athA], ["Girls"]⟩
      = (⟨[athA], ["Girls"]⟩, some needs_cols_msg)
    ∧ load_data ⟨["Category", "House", "Name"], [[some "Girls", some "Red", some "Ann"]]⟩
        ⟨[athA], ["Girls"]⟩
      = (⟨[⟨"Ann_Red", "Girls", "Red", "Ann", "", "", "", "", ""⟩], []⟩, none) :=
  ⟨(C9_bulk_load ⟨["category", "House", "Name"], []⟩ ⟨[athA], ["Girls"]⟩).1 (by decide),
    ((C9_bulk_load ⟨["Category", "House", "Name"], [[some "Girls", some "Red", some "Ann"]]⟩
      ⟨[athA], ["Girls"]⟩).2 (by decide)).1.trans (by decide)⟩

/-- C10: the displayed final-round rank is one plus the index of the first
leaderboard record comparing equal to the athlete, so two identical records
share the first occurrence's rank: with roster [D, D, C] the display order
carries ranks [3, 1, 1], which repeat and are not the full set. -/
theorem C10_current_rank_first_match (s : List Athlete) (a : Athlete) (h : a ∈ s) :
    current_rank s a = list_index a s + 1
    ∧ s.get? (list_index a s) = some a
    ∧ (∀ j, j < list_index a s → s.get? j ≠ some a)
    ∧ (final_order [athD, athD, athC]).map (current_rank (sorted_athletes [athD, athD, athC]))
        = [3, 1, 1]
    ∧ ¬ ((final_order [athD, athD, athC]).map
          (current_rank (sorted_athletes [athD, athD, athC]))).Nodup :=
  ⟨rfl, (list_index_spec s a h).1, (list_index_spec s a h).2, by decide, by decide⟩

/-- Witness for C10 at a concrete membership. -/
theorem C10_witness :
    athD ∈ [athD, athD, athC]
    ∧ [athD, athD, athC].get? (list_index athD [athD, athD, athC]) = some athD :=
  ⟨by decide, (C10_current_rank_first_match [athD, athD, athC] athD (by decide)).2.1⟩

end Discus
